import Mathlib

/-!
Verification of the Vision-Y YOLOv8 detection service
(src/src/components/ml/YOLOv8Service.py) against its specification.

Python floats are modelled as rationals, Python strings as lists of
characters, and the third-party imaging stack (base64, PIL, numpy) as a
record of abstract deterministic functions whose failures carry the
exception message. FastAPI's HTTPException is an ordinary Python
exception, so a `raise HTTPException(...)` inside a `try` block is caught
by a broad `except Exception` handler; the embedding models handler
bodies as `Except HTTPError` computations to reflect exactly that flow.
-/

namespace VisionY

/-- Python strings at the character level. -/
abbrev Str := List Char

/-- Raw byte payloads (file contents, decoded base64). -/
abbrev Bytes := List Nat

/-- A PIL image handle. The service only inspects the mode string; the
image content itself is abstracted to an identifier. -/
structure PILImage where
  mode : String
  content : Nat
deriving DecidableEq

/-- A decoded numpy pixel array; `shape[:2]` is (height, width). -/
structure NpArray where
  height : Nat
  width : Nat
  pixels : List (List (List Nat))
deriving DecidableEq

/-- The third-party imaging stack used by the service, as abstract
deterministic functions: base64 decode/encode, `Image.open`,
`Image.convert`, `np.array`. Failing calls return the exception text. -/
structure ImageLib where
  b64decode : Str → Except String Bytes
  b64encode : Bytes → Str
  imageOpen : Bytes → Except String PILImage
  imageConvert : PILImage → String → PILImage
  npOfImage : PILImage → NpArray

/-- An HTTPException value: status code and detail message. -/
structure HTTPError where
  status_code : Nat
  detail : String
deriving DecidableEq

/-- starlette renders `str(HTTPException)` as the status code, a colon
and the detail. -/
def exceptionStr (e : HTTPError) : String :=
  toString e.status_code ++ ": " ++ e.detail

/-- Normalized bounding box (the BoundingBox pydantic model). -/
structure BoundingBox where
  x : ℚ
  y : ℚ
  width : ℚ
  height : ℚ
deriving DecidableEq

/-- A detection result (the Detection pydantic model). -/
structure Detection where
  class_name : String
  confidence : ℚ
  bbox : BoundingBox
deriving DecidableEq

/-- The DetectionRequest pydantic model. The thresholds dict is an
association list in insertion order with distinct keys. -/
structure DetectionRequest where
  image_data : Option Str
  image_url : Option Str
  classes : List String
  thresholds : List (String × ℚ)
  nms_iou : ℚ

/-- The DetectionResponse pydantic model (model_info is static metadata
and is omitted). -/
structure DetectionResponse where
  detections : List Detection
  processing_time_ms : ℚ
  image_size : Nat × Nat
deriving DecidableEq

/-- The HealthResponse pydantic model. -/
structure HealthResponse where
  status : String
  model_loaded : Bool
  device : String
  timestamp : Nat
deriving DecidableEq

/-- One raw model detection after the `.cpu().numpy()` extraction: the
pixel-space corner box (x1, y1, x2, y2), the confidence, and the native
class id (`astype(int)`; YOLO ids are non-negative). -/
structure RawDet where
  box : ℚ × ℚ × ℚ × ℚ
  conf : ℚ
  class_id : Nat
deriving DecidableEq

/-- One ultralytics result object; `result.boxes` may be None. The three
parallel arrays (boxes, confidences, class ids) are modelled zipped. -/
structure YoloResult where
  boxes : Option (List RawDet)
deriving DecidableEq

/-- Process-wide state of the service: the optional model handle (a
function from pixel array, confidence floor and IoU threshold to raw
results), the configured CONFIDENCE_THRESHOLD, the imaging stack, the
device string, and the measured request latency (abstracted). -/
structure ServiceState where
  model : Option (NpArray → ℚ → ℚ → List YoloResult)
  CONFIDENCE_THRESHOLD : ℚ
  lib : ImageLib
  device : String
  elapsed_ms : ℚ

/-- The YOLO_TO_VY_CLASSES dict: native class id to Vision-Y class name. -/
def YOLO_TO_VY_CLASSES (class_id : Nat) : Option String :=
  if class_id = 0 then some "person"
  else if class_id = 1 then some "bicycle"
  else if class_id = 2 then some "car"
  else if class_id = 3 then some "motorcycle"
  else if class_id = 5 then some "truck"
  else if class_id = 7 then some "truck"
  else if class_id = 14 then some "animal"
  else if class_id = 15 then some "animal"
  else if class_id = 16 then some "animal"
  else if class_id = 17 then some "animal"
  else none

/-- Python `s.startswith(p)` on character lists. -/
def pyStartsWith (s p : Str) : Bool := p.isPrefixOf s

/-- Python `s.split(sep)` for a one-character separator: never returns
an empty list; splitting the empty string yields one empty group. -/
def pySplit (sep : Char) : Str → List Str
  | [] => [[]]
  | c :: rest =>
    if c = sep then [] :: pySplit sep rest
    else
      match pySplit sep rest with
      | [] => [[c]]
      | g :: gs => (c :: g) :: gs

/-- decode_image: strip a data-URL header (`split(",")[1]`, which raises
IndexError when no comma is present), base64-decode, open with PIL,
convert to RGB when needed, and take the numpy array. Any exception in
the body is caught and re-raised as a 400 carrying the cause. -/
def decode_image (lib : ImageLib) (image_data : Str) : Except HTTPError NpArray :=
  let stripped : Except String Str :=
    if pyStartsWith image_data "data:image".toList then
      match (pySplit ',' image_data)[1]? with
      | some p => Except.ok p
      | none => Except.error "list index out of range"
    else Except.ok image_data
  let pipeline : Except String NpArray := do
    let payload ← stripped
    let image_bytes ← lib.b64decode payload
    let image ← lib.imageOpen image_bytes
    let image := if image.mode ≠ "RGB" then lib.imageConvert image "RGB" else image
    pure (lib.npOfImage image)
  match pipeline with
  | Except.ok a => Except.ok a
  | Except.error e => Except.error ⟨400, "Invalid image data: " ++ e⟩

/-- normalize_bbox: divide pixel corners by the image dimensions. -/
def normalize_bbox : ℚ × ℚ × ℚ × ℚ → Nat → Nat → BoundingBox
  | (x1, y1, x2, y2), img_width, img_height =>
    ⟨x1 / img_width, y1 / img_height, (x2 - x1) / img_width, (y2 - y1) / img_height⟩

/-- The inner loop of filter_detections over one result's raw
detections, in emission order. `if not vy_class` in Python also skips an
empty class name. -/
def detLoop (CONFIDENCE_THRESHOLD : ℚ) (classes : List String)
    (thresholds : List (String × ℚ)) (img_width img_height : Nat) :
    List RawDet → List Detection
  | [] => []
  | d :: rest =>
    match YOLO_TO_VY_CLASSES d.class_id with
    | none => detLoop CONFIDENCE_THRESHOLD classes thresholds img_width img_height rest
    | some vy_class =>
      if vy_class = "" then
        detLoop CONFIDENCE_THRESHOLD classes thresholds img_width img_height rest
      else if classes ≠ [] ∧ vy_class ∉ classes then
        detLoop CONFIDENCE_THRESHOLD classes thresholds img_width img_height rest
      else if d.conf < (thresholds.lookup vy_class).getD CONFIDENCE_THRESHOLD then
        detLoop CONFIDENCE_THRESHOLD classes thresholds img_width img_height rest
      else
        ⟨vy_class, d.conf, normalize_bbox d.box img_width img_height⟩ ::
          detLoop CONFIDENCE_THRESHOLD classes thresholds img_width img_height rest

/-- filter_detections: iterate over the results, skipping results whose
boxes are None, and run the inner loop on each, appending in order. -/
def filter_detections (CONFIDENCE_THRESHOLD : ℚ) (results : List YoloResult)
    (classes : List String) (thresholds : List (String × ℚ))
    (img_width img_height : Nat) : List Detection :=
  match results with
  | [] => []
  | r :: rs =>
    (match r.boxes with
     | none => []
     | some ds => detLoop CONFIDENCE_THRESHOLD classes thresholds img_width img_height ds)
    ++ filter_detections CONFIDENCE_THRESHOLD rs classes thresholds img_width img_height

/-- Python truthiness of an optional string field: None and the empty
string are falsy. -/
def pyTruthy : Option Str → Bool
  | none => false
  | some s => !s.isEmpty

/-- Python `min` over a nonempty list (raises on empty; the only caller
guards with the dict's truthiness, so the empty case is unreachable). -/
def pyMin : List ℚ → ℚ
  | [] => 0
  | v :: vs => vs.foldl min v

/-- The `conf=` argument of the model invocation:
`min(request.thresholds.values()) if request.thresholds else CONFIDENCE_THRESHOLD`. -/
def inference_conf (st : ServiceState) (request : DetectionRequest) : ℚ :=
  if request.thresholds ≠ [] then pyMin (request.thresholds.map Prod.snd)
  else st.CONFIDENCE_THRESHOLD

/-- The /detect handler. A missing model returns 503 before the `try`
block. Inside the `try`, HTTPExceptions raised by decode_image or by the
handler itself are ordinary exceptions, so the trailing broad
`except Exception` catches them and re-raises 500 "Detection failed: "
followed by `str(e)`. -/
def detect_objects (st : ServiceState) (request : DetectionRequest) :
    Except HTTPError DetectionResponse :=
  match st.model with
  | none => Except.error ⟨503, "Model not loaded"⟩
  | some model =>
    let tryBlock : Except HTTPError DetectionResponse := do
      let img_array ←
        if pyTruthy request.image_data then
          decode_image st.lib (request.image_data.getD [])
        else if pyTruthy request.image_url then
          Except.error ⟨400, "Image URL not supported yet"⟩
        else
          Except.error ⟨400, "Either image_data or image_url required"⟩
      let img_height := img_array.height
      let img_width := img_array.width
      let results := model img_array (inference_conf st request) request.nms_iou
      let detections := filter_detections st.CONFIDENCE_THRESHOLD results
        request.classes request.thresholds img_width img_height
      pure ⟨detections, st.elapsed_ms, (img_width, img_height)⟩
    match tryBlock with
    | Except.ok r => Except.ok r
    | Except.error e => Except.error ⟨500, "Detection failed: " ++ exceptionStr e⟩

/-- The /health handler. -/
def health_check (st : ServiceState) (now : Nat) : HealthResponse :=
  ⟨if st.model.isSome then "healthy" else "unhealthy", st.model.isSome, st.device, now⟩

/-- An uploaded file in /batch-validate: name and raw contents. -/
structure UploadFile where
  filename : String
  content : Bytes

/-- One per-file record of /batch-validate. Success records carry the
detection count and latency; failure records carry `str(e)`. -/
structure BatchEntry where
  filename : String
  detections : Option Nat
  processing_time_ms : Option ℚ
  error : Option String
  success : Bool
deriving DecidableEq

/-- One iteration of the /batch-validate loop: read the file, base64
encode it, build a DetectionRequest with default fields, call the detect
handler, and record success or failure. -/
def processOne (st : ServiceState) (file : UploadFile) : BatchEntry :=
  match detect_objects st ⟨some (st.lib.b64encode file.content), none, [], [], 45/100⟩ with
  | Except.ok result =>
    ⟨file.filename, some result.detections.length, some result.processing_time_ms, none, true⟩
  | Except.error e =>
    ⟨file.filename, none, none, some (exceptionStr e), false⟩

/-- The /batch-validate handler: the loop appends one record per file,
in order, each iteration wrapped in its own try/except. -/
def batch_validate (st : ServiceState) : List UploadFile → List BatchEntry
  | [] => []
  | file :: rest => processOne st file :: batch_validate st rest

/-! ## Spec-side descriptions (section 4.4 of the spec), for refinement
claims comparing the source's filter with the specified one. -/

/-- The spec's keep condition for one raw detection: its native id is in
the ClassMap, the mapped name passes a non-empty allowlist, and the
confidence is not below the effective per-class threshold (the caller's
override for the class when present, else the configured default). -/
def keptBySpec (CONFIDENCE_THRESHOLD : ℚ) (classes : List String)
    (thresholds : List (String × ℚ)) (d : RawDet) : Bool :=
  match YOLO_TO_VY_CLASSES d.class_id with
  | none => false
  | some vy_class =>
    decide (classes = [] ∨ vy_class ∈ classes) &&
    decide ((thresholds.lookup vy_class).getD CONFIDENCE_THRESHOLD ≤ d.conf)

/-- The spec's emitted Detection for a kept raw detection: the mapped
class name, the raw confidence, and the normalized box. -/
def emitBySpec (img_width img_height : Nat) (d : RawDet) : Detection :=
  ⟨(YOLO_TO_VY_CLASSES d.class_id).getD "", d.conf,
    normalize_bbox d.box img_width img_height⟩

/-- The raw detections contributed by one result object (none when its
boxes are absent). -/
def rawOf (r : YoloResult) : List RawDet := r.boxes.getD []

/-- Membership in the standard base64 alphabet (A-Z, a-z, 0-9, +, /,
and the padding =); a valid base64 payload contains no comma. -/
def base64Char (c : Char) : Bool :=
  decide (('A' ≤ c ∧ c ≤ 'Z') ∨ ('a' ≤ c ∧ c ≤ 'z') ∨ ('0' ≤ c ∧ c ≤ '9')
    ∨ c = '+' ∨ c = '/' ∨ c = '=')

/-! ## Concrete fixtures used to instantiate the abstract imaging stack
and model in witnesses. -/

/-- A fixture imaging stack whose decode path always succeeds. -/
def okLib : ImageLib :=
  ⟨fun _ => Except.ok [1, 2, 3], fun _ => ['Q', 'U'],
   fun _ => Except.ok ⟨"RGB", 0⟩, fun i _ => i, fun _ => ⟨100, 100, []⟩⟩

/-- A fixture model producing no detections. -/
def constModel : NpArray → ℚ → ℚ → List YoloResult := fun _ _ _ => []

/-- A fixture state with a loaded model and the working imaging stack. -/
def okState : ServiceState := ⟨some constModel, 1/2, okLib, "cpu", 0⟩

/-- A fixture request carrying a decodable payload. -/
def okRequest : DetectionRequest := ⟨some ['Q', 'U'], none, [], [], 45/100⟩

/-- A fixture imaging stack whose base64 decode always fails. -/
def badLib : ImageLib :=
  ⟨fun _ => Except.error "bad base64", fun _ => ['A'],
   fun _ => Except.ok ⟨"RGB", 0⟩, fun i _ => i, fun _ => ⟨1, 1, []⟩⟩

/-- A fixture state with a loaded model and the failing imaging stack. -/
def badState : ServiceState := ⟨some constModel, 1/2, badLib, "cpu", 0⟩

/-! ## Helper lemmas -/

/-- Every name in the class map is nonempty, so Python's `if not
vy_class` check never fires after a successful lookup. -/
theorem yolo_class_nonempty (i : Nat) (vy : String)
    (h : YOLO_TO_VY_CLASSES i = some vy) : vy ≠ "" := by
  unfold YOLO_TO_VY_CLASSES at h
  split_ifs at h <;>
    first
      | exact Option.noConfusion h
      | (rw [Option.some.injEq] at h; subst h; decide)

/-- The inner loop keeps exactly the raw detections satisfying the
spec's keep condition, in order, each emitted as the spec describes. -/
theorem detLoop_eq_filter_map (ct : ℚ) (classes : List String)
    (thresholds : List (String × ℚ)) (w h : Nat) (raws : List RawDet) :
    detLoop ct classes thresholds w h raws
      = (raws.filter (keptBySpec ct classes thresholds)).map (emitBySpec w h) := by
  induction raws with
  | nil => rfl
  | cons d rest ih =>
    cases hmap : YOLO_TO_VY_CLASSES d.class_id with
    | none =>
      have hdrop : keptBySpec ct classes thresholds d = false := by
        simp [keptBySpec, hmap]
      simp [detLoop, hmap, List.filter_cons, hdrop, ih]
    | some vy =>
      have hne : vy ≠ "" := yolo_class_nonempty d.class_id vy hmap
      by_cases hcls : classes = [] ∨ vy ∈ classes
      · by_cases hconf : (thresholds.lookup vy).getD ct ≤ d.conf
        · have hkeep : keptBySpec ct classes thresholds d = true := by
            simp [keptBySpec, hmap, hcls, hconf]
          have hnskip : ¬(classes ≠ [] ∧ vy ∉ classes) := by tauto
          simp [detLoop, hmap, hne, hnskip, not_lt.mpr hconf, List.filter_cons,
            hkeep, ih, emitBySpec]
        · have hdrop : keptBySpec ct classes thresholds d = false := by
            simp [keptBySpec, hmap, hconf]
          have hnskip : ¬(classes ≠ [] ∧ vy ∉ classes) := by tauto
          simp [detLoop, hmap, hne, hnskip, not_le.mp hconf, List.filter_cons,
            hdrop, ih]
      · have hdrop : keptBySpec ct classes thresholds d = false := by
          simp [keptBySpec, hmap, hcls]
        have hskip : classes ≠ [] ∧ vy ∉ classes := by tauto
        simp [detLoop, hmap, hne, hskip, List.filter_cons, hdrop, ih]

/-- Folding min never exceeds the initial accumulator. -/
theorem foldl_min_le_init (l : List ℚ) (a : ℚ) : l.foldl min a ≤ a := by
  induction l generalizing a with
  | nil => exact le_refl a
  | cons b bs ih => exact le_trans (ih (min a b)) (min_le_left a b)

/-- Folding min never exceeds any list element. -/
theorem foldl_min_le_mem (l : List ℚ) : ∀ a x : ℚ, x ∈ l → l.foldl min a ≤ x := by
  induction l with
  | nil => intro a x hx; cases hx
  | cons b bs ih =>
    intro a x hx
    rcases List.mem_cons.mp hx with rfl | hx'
    · exact le_trans (foldl_min_le_init bs (min a x)) (min_le_right a x)
    · exact ih (min a b) x hx'

/-- The fold of min is the accumulator or some list element. -/
theorem foldl_min_mem (l : List ℚ) : ∀ a : ℚ, l.foldl min a = a ∨ l.foldl min a ∈ l := by
  induction l with
  | nil => intro a; exact Or.inl rfl
  | cons b bs ih =>
    intro a
    rcases ih (min a b) with h | h
    · rcases min_choice a b with hab | hab
      · exact Or.inl (by rw [List.foldl_cons, h, hab])
      · refine Or.inr ?_
        rw [List.foldl_cons, h, hab]
        exact List.mem_cons_self b bs
    · exact Or.inr (List.mem_cons_of_mem b h)

/-- Python min of a nonempty list is an element of the list. -/
theorem pyMin_mem (l : List ℚ) (hl : l ≠ []) : pyMin l ∈ l := by
  cases l with
  | nil => exact absurd rfl hl
  | cons v vs =>
    rcases foldl_min_mem vs v with h | h
    · rw [pyMin, h]; exact List.mem_cons_self v vs
    · rw [pyMin]; exact List.mem_cons_of_mem v h

/-- Python min of a list is a lower bound of its elements. -/
theorem pyMin_le (l : List ℚ) (x : ℚ) (hx : x ∈ l) : pyMin l ≤ x := by
  cases l with
  | nil => cases hx
  | cons v vs =>
    rcases List.mem_cons.mp hx with rfl | h
    · exact foldl_min_le_init vs x
    · exact foldl_min_le_mem vs v x h

/-- Python split never yields an empty group list. -/
theorem pySplit_ne_nil (sep : Char) : ∀ s : Str, pySplit sep s ≠ [] := by
  intro s
  induction s with
  | nil => simp [pySplit]
  | cons c rest ih =>
    by_cases hc : c = sep
    · simp [pySplit, hc]
    · cases hres : pySplit sep rest with
      | nil => exact absurd hres ih
      | cons g gs => simp [pySplit, hc, hres]

/-- Splitting a separator-free string yields that single group. -/
theorem pySplit_no_sep (sep : Char) : ∀ s : Str, sep ∉ s → pySplit sep s = [s] := by
  intro s
  induction s with
  | nil => intro _; rfl
  | cons c rest ih =>
    intro hns
    have hc : c ≠ sep := by
      intro h; subst h; exact hns (List.mem_cons_self c rest)
    have hrest : sep ∉ rest := fun h => hns (List.mem_cons_of_mem c h)
    simp [pySplit, hc, ih hrest]

/-- Splitting at the first separator after a separator-free part peels
off that part as the first group. -/
theorem pySplit_append (sep : Char) :
    ∀ p : Str, sep ∉ p → ∀ s, pySplit sep (p ++ sep :: s) = p :: pySplit sep s := by
  intro p
  induction p with
  | nil => intro _ s; simp [pySplit]
  | cons c cp ih =>
    intro hns s
    have hc : c ≠ sep := by
      intro h; subst h; exact hns (List.mem_cons_self c cp)
    have hcp : sep ∉ cp := fun h => hns (List.mem_cons_of_mem c h)
    simp [pySplit, hc, ih hcp s]

/-- The batch loop is a map of the per-file processing step. -/
theorem batch_validate_eq_map (st : ServiceState) (files : List UploadFile) :
    batch_validate st files = files.map (processOne st) := by
  induction files with
  | nil => rfl
  | cons f fs ih => simp [batch_validate, ih]

/-! ## Claims -/

/-- C2: for every sequence of raw detections and every request,
filter_detections returns, preserving the invoker's emission order with
no re-sorting, exactly those raw detections whose native class id is
mapped by YOLO_TO_VY_CLASSES, whose mapped name is in the allowlist
whenever a non-empty allowlist was supplied, and whose confidence is not
below the effective per-class threshold; each kept detection carries the
mapped class name, the raw confidence, and the normalized box. -/
theorem filter_detections_spec (ct : ℚ) (results : List YoloResult)
    (classes : List String) (thresholds : List (String × ℚ)) (w h : Nat) :
    filter_detections ct results classes thresholds w h
      = ((results.map rawOf).flatten.filter (keptBySpec ct classes thresholds)).map
          (emitBySpec w h) := by
  induction results with
  | nil => rfl
  | cons r rs ih =>
    cases hr : r.boxes with
    | none => simp [filter_detections, hr, rawOf, ih]
    | some ds =>
      simp [filter_detections, hr, rawOf, ih, detLoop_eq_filter_map,
        List.filter_append]

/-- C6: the effective threshold for a mapped detection that passes the
allowlist is the caller's per-class override when present, else the
configured default, and the detection is dropped exactly when its
confidence is strictly below that threshold; concretely, a "car"
detection with confidence 0.6 is emitted under thresholds car↦0.5 and
dropped under thresholds car↦0.7. -/
theorem effective_threshold_spec :
    (∀ (ct : ℚ) (classes : List String) (thresholds : List (String × ℚ))
        (w h : Nat) (d : RawDet) (vy : String),
      YOLO_TO_VY_CLASSES d.class_id = some vy →
      (classes = [] ∨ vy ∈ classes) →
      detLoop ct classes thresholds w h [d]
        = if d.conf < (thresholds.lookup vy).getD ct then []
          else [⟨vy, d.conf, normalize_bbox d.box w h⟩])
    ∧ filter_detections (1/2) [⟨some [⟨(10, 10, 20, 20), 3/5, 2⟩]⟩] []
        [("car", 1/2)] 100 100
        = [⟨"car", 3/5, normalize_bbox (10, 10, 20, 20) 100 100⟩]
    ∧ filter_detections (1/2) [⟨some [⟨(10, 10, 20, 20), 3/5, 2⟩]⟩] []
        [("car", 7/10)] 100 100 = [] := by
  refine ⟨?_,
    by norm_num [filter_detections, detLoop, YOLO_TO_VY_CLASSES, List.lookup] <;> decide,
    by norm_num [filter_detections, detLoop, YOLO_TO_VY_CLASSES, List.lookup]⟩
  intro ct classes thresholds w h d vy hmap hcls
  have hne : vy ≠ "" := yolo_class_nonempty d.class_id vy hmap
  have hnskip : ¬(classes ≠ [] ∧ vy ∉ classes) := by tauto
  by_cases hconf : d.conf < (thresholds.lookup vy).getD ct
  · simp [detLoop, hmap, hne, hnskip, hconf]
  · simp [detLoop, hmap, hne, hnskip, hconf]

/-- C6 witness: the general clause applied to the concrete "car"
detection of the claim. -/
theorem effective_threshold_spec_witness :
    detLoop (1/2) [] [("car", 1/2)] 100 100 [⟨(10, 10, 20, 20), 3/5, 2⟩]
      = if (3/5 : ℚ) < ((List.lookup "car" [("car", (1/2 : ℚ))]).getD (1/2)) then []
        else [⟨"car", 3/5, normalize_bbox (10, 10, 20, 20) 100 100⟩] :=
  effective_threshold_spec.1 (1/2) [] [("car", 1/2)] 100 100
    ⟨(10, 10, 20, 20), 3/5, 2⟩ "car" (by decide) (Or.inl rfl)

/-- C7: native class id 5 maps to "truck" and such a detection is
emitted with that name when it passes the allowlist and threshold
checks; native class id 99 is unmapped and is dropped for every
confidence, allowlist and thresholds mapping. -/
theorem class_remap_spec :
    YOLO_TO_VY_CLASSES 5 = some "truck"
    ∧ (∀ (ct : ℚ) (classes : List String) (thresholds : List (String × ℚ))
        (w h : Nat) (box : ℚ × ℚ × ℚ × ℚ) (conf : ℚ),
        detLoop ct classes thresholds w h [⟨box, conf, 99⟩] = [])
    ∧ (∀ (ct : ℚ) (classes : List String) (thresholds : List (String × ℚ))
        (w h : Nat) (box : ℚ × ℚ × ℚ × ℚ) (conf : ℚ),
        (classes = [] ∨ "truck" ∈ classes) →
        (thresholds.lookup "truck").getD ct ≤ conf →
        detLoop ct classes thresholds w h [⟨box, conf, 5⟩]
          = [⟨"truck", conf, normalize_bbox box w h⟩]) := by
  refine ⟨by decide, ?_, ?_⟩
  · intro ct classes thresholds w h box conf
    simp [detLoop, YOLO_TO_VY_CLASSES]
  · intro ct classes thresholds w h box conf hcls hconf
    have hnskip : ¬(classes ≠ [] ∧ "truck" ∉ classes) := by tauto
    have hmap : YOLO_TO_VY_CLASSES 5 = some "truck" := by decide
    simp [detLoop, hmap, hnskip, not_lt.mpr hconf]

/-- C7 witness: a class-99 detection is dropped and a class-5 detection
is emitted as "truck" at concrete inputs. -/
theorem class_remap_spec_witness :
    detLoop (1/2) [] [] 100 100 [⟨(0, 0, 10, 10), 9/10, 99⟩] = []
    ∧ detLoop (1/2) [] [] 100 100 [⟨(0, 0, 10, 10), 9/10, 5⟩]
        = [⟨"truck", 9/10, normalize_bbox (0, 0, 10, 10) 100 100⟩] :=
  ⟨class_remap_spec.2.1 (1/2) [] [] 100 100 (0, 0, 10, 10) (9/10),
   class_remap_spec.2.2 (1/2) [] [] 100 100 (0, 0, 10, 10) (9/10)
     (Or.inl rfl) (by norm_num [List.lookup])⟩

/-- C3: for a loaded model and a decodable payload, the confidence floor
passed to the model invocation is inference_conf, which is the minimum
of the caller-supplied per-class threshold values when the thresholds
mapping is non-empty, and the configured default when it is empty. -/
theorem inference_floor_spec (st : ServiceState) (request : DetectionRequest)
    (m : NpArray → ℚ → ℚ → List YoloResult) (img : NpArray)
    (hm : st.model = some m)
    (hdata : pyTruthy request.image_data = true)
    (hdec : decode_image st.lib (request.image_data.getD []) = Except.ok img) :
    detect_objects st request
      = Except.ok ⟨filter_detections st.CONFIDENCE_THRESHOLD
          (m img (inference_conf st request) request.nms_iou)
          request.classes request.thresholds img.width img.height,
          st.elapsed_ms, (img.width, img.height)⟩
    ∧ (request.thresholds = [] → inference_conf st request = st.CONFIDENCE_THRESHOLD)
    ∧ (request.thresholds ≠ [] →
        inference_conf st request ∈ request.thresholds.map Prod.snd
        ∧ ∀ v ∈ request.thresholds.map Prod.snd, inference_conf st request ≤ v) := by
  refine ⟨?_, ?_, ?_⟩
  · simp [detect_objects, hm, hdata, hdec]
  · intro h
    simp [inference_conf, h]
  · intro h
    have hmapne : request.thresholds.map Prod.snd ≠ [] := by
      simpa using h
    have hconf : inference_conf st request = pyMin (request.thresholds.map Prod.snd) := by
      simp [inference_conf, h]
    rw [hconf]
    exact ⟨pyMin_mem _ hmapne, fun v hv => pyMin_le _ v hv⟩

/-- C3 witness: the general theorem at the fixture state and request. -/
theorem inference_floor_spec_witness :
    detect_objects okState okRequest
      = Except.ok ⟨filter_detections okState.CONFIDENCE_THRESHOLD
          (constModel ⟨100, 100, []⟩ (inference_conf okState okRequest) okRequest.nms_iou)
          okRequest.classes okRequest.thresholds 100 100,
          okState.elapsed_ms, (100, 100)⟩ :=
  (inference_floor_spec okState okRequest constModel ⟨100, 100, []⟩ rfl rfl rfl).1

/-- C4 counterexample: with image size 1×1 and the model emitting the
pixel-space corner box (0, 0, 2, 1) for a mapped class above threshold,
the service produces a BoundingBox whose width field is 2, outside
[0,1]: the normalizer performs no clamping. -/
theorem bbox_unit_range_counterexample :
    (filter_detections (1/2) [⟨some [⟨(0, 0, 2, 1), 1, 0⟩]⟩] [] [] 1 1).map Detection.bbox
      = [⟨0, 0, 2, 1⟩]
    ∧ ¬((⟨0, 0, 2, 1⟩ : BoundingBox).width ≤ 1) := by
  constructor
  · norm_num [filter_detections, detLoop, YOLO_TO_VY_CLASSES, List.lookup,
      normalize_bbox] <;> decide
  · norm_num

/-- C4 amended: every BoundingBox the service produces has its four
fields in [0,1] provided the model's pixel box lies within the image
(0 ≤ x1 ≤ x2 ≤ W and 0 ≤ y1 ≤ y2 ≤ H, with W, H > 0); the normalizer
does not clamp, so out-of-bounds pixel boxes yield out-of-range
fields. -/
theorem bbox_unit_range_amended (x1 y1 x2 y2 : ℚ) (W H : Nat)
    (hW : 0 < W) (hH : 0 < H)
    (hx1 : 0 ≤ x1) (hx12 : x1 ≤ x2) (hx2 : x2 ≤ (W : ℚ))
    (hy1 : 0 ≤ y1) (hy12 : y1 ≤ y2) (hy2 : y2 ≤ (H : ℚ)) :
    (0 ≤ (normalize_bbox (x1, y1, x2, y2) W H).x
      ∧ (normalize_bbox (x1, y1, x2, y2) W H).x ≤ 1)
    ∧ (0 ≤ (normalize_bbox (x1, y1, x2, y2) W H).y
      ∧ (normalize_bbox (x1, y1, x2, y2) W H).y ≤ 1)
    ∧ (0 ≤ (normalize_bbox (x1, y1, x2, y2) W H).width
      ∧ (normalize_bbox (x1, y1, x2, y2) W H).width ≤ 1)
    ∧ (0 ≤ (normalize_bbox (x1, y1, x2, y2) W H).height
      ∧ (normalize_bbox (x1, y1, x2, y2) W H).height ≤ 1) := by
  have hWQ : (0 : ℚ) < (W : ℚ) := by exact_mod_cast hW
  have hHQ : (0 : ℚ) < (H : ℚ) := by exact_mod_cast hH
  simp only [normalize_bbox]
  refine ⟨⟨?_, ?_⟩, ⟨?_, ?_⟩, ⟨?_, ?_⟩, ⟨?_, ?_⟩⟩
  · exact div_nonneg hx1 hWQ.le
  · exact (div_le_one hWQ).mpr (hx12.trans hx2)
  · exact div_nonneg hy1 hHQ.le
  · exact (div_le_one hHQ).mpr (hy12.trans hy2)
  · exact div_nonneg (sub_nonneg.mpr hx12) hWQ.le
  · exact (div_le_one hWQ).mpr (by linarith)
  · exact div_nonneg (sub_nonneg.mpr hy12) hHQ.le
  · exact (div_le_one hHQ).mpr (by linarith)

/-- C4 amended witness: the amended bound at a concrete in-bounds box. -/
theorem bbox_unit_range_amended_witness :
    (0 ≤ (normalize_bbox (0, 1, 2, 3) 4 4).x
      ∧ (normalize_bbox (0, 1, 2, 3) 4 4).x ≤ 1)
    ∧ (0 ≤ (normalize_bbox (0, 1, 2, 3) 4 4).y
      ∧ (normalize_bbox (0, 1, 2, 3) 4 4).y ≤ 1)
    ∧ (0 ≤ (normalize_bbox (0, 1, 2, 3) 4 4).width
      ∧ (normalize_bbox (0, 1, 2, 3) 4 4).width ≤ 1)
    ∧ (0 ≤ (normalize_bbox (0, 1, 2, 3) 4 4).height
      ∧ (normalize_bbox (0, 1, 2, 3) 4 4).height ≤ 1) :=
  bbox_unit_range_amended 0 1 2 3 4 4 (by norm_num) (by norm_num) (by norm_num)
    (by norm_num) (by norm_num) (by norm_num) (by norm_num) (by norm_num)

/-- C5: under the normalizer's preconditions (W, H > 0 and corners
within bounds), all four output fields lie in [0,1] and x + width
equals x2/W exactly in rational arithmetic. -/
theorem normalizer_round_trip (x1 y1 x2 y2 : ℚ) (W H : Nat)
    (hW : 0 < W) (hH : 0 < H)
    (hx1 : 0 ≤ x1) (hx12 : x1 ≤ x2) (hx2 : x2 ≤ (W : ℚ))
    (hy1 : 0 ≤ y1) (hy12 : y1 ≤ y2) (hy2 : y2 ≤ (H : ℚ)) :
    (0 ≤ (normalize_bbox (x1, y1, x2, y2) W H).x
      ∧ (normalize_bbox (x1, y1, x2, y2) W H).x ≤ 1
      ∧ 0 ≤ (normalize_bbox (x1, y1, x2, y2) W H).y
      ∧ (normalize_bbox (x1, y1, x2, y2) W H).y ≤ 1
      ∧ 0 ≤ (normalize_bbox (x1, y1, x2, y2) W H).width
      ∧ (normalize_bbox (x1, y1, x2, y2) W H).width ≤ 1
      ∧ 0 ≤ (normalize_bbox (x1, y1, x2, y2) W H).height
      ∧ (normalize_bbox (x1, y1, x2, y2) W H).height ≤ 1)
    ∧ (normalize_bbox (x1, y1, x2, y2) W H).x
        + (normalize_bbox (x1, y1, x2, y2) W H).width = x2 / (W : ℚ) := by
  have hWQ : (0 : ℚ) < (W : ℚ) := by exact_mod_cast hW
  have hHQ : (0 : ℚ) < (H : ℚ) := by exact_mod_cast hH
  simp only [normalize_bbox]
  refine ⟨⟨?_, ?_, ?_, ?_, ?_, ?_, ?_, ?_⟩, ?_⟩
  · exact div_nonneg hx1 hWQ.le
  · exact (div_le_one hWQ).mpr (hx12.trans hx2)
  · exact div_nonneg hy1 hHQ.le
  · exact (div_le_one hHQ).mpr (hy12.trans hy2)
  · exact div_nonneg (sub_nonneg.mpr hx12) hWQ.le
  · exact (div_le_one hWQ).mpr (by linarith)
  · exact div_nonneg (sub_nonneg.mpr hy12) hHQ.le
  · exact (div_le_one hHQ).mpr (by linarith)
  · rw [div_add_div_same]
    ring_nf

/-- C5 witness: the round-trip property at a concrete box. -/
theorem normalizer_round_trip_witness :
    (0 ≤ (normalize_bbox (10, 20, 30, 40) 100 200).x
      ∧ (normalize_bbox (10, 20, 30, 40) 100 200).x ≤ 1
      ∧ 0 ≤ (normalize_bbox (10, 20, 30, 40) 100 200).y
      ∧ (normalize_bbox (10, 20, 30, 40) 100 200).y ≤ 1
      ∧ 0 ≤ (normalize_bbox (10, 20, 30, 40) 100 200).width
      ∧ (normalize_bbox (10, 20, 30, 40) 100 200).width ≤ 1
      ∧ 0 ≤ (normalize_bbox (10, 20, 30, 40) 100 200).height
      ∧ (normalize_bbox (10, 20, 30, 40) 100 200).height ≤ 1)
    ∧ (normalize_bbox (10, 20, 30, 40) 100 200).x
        + (normalize_bbox (10, 20, 30, 40) 100 200).width = 30 / (100 : ℚ) :=
  normalizer_round_trip 10 20 30 40 100 200 (by norm_num) (by norm_num)
    (by norm_num) (by norm_num) (by norm_num) (by norm_num) (by norm_num)
    (by norm_num)

/-- C10: the health response is internally consistent in every process
state: status is "healthy" iff the model handle is loaded, "unhealthy"
iff it is not, and no other status value occurs. -/
theorem health_consistency (st : ServiceState) (now : Nat) :
    ((health_check st now).status = "healthy"
      ↔ (health_check st now).model_loaded = true)
    ∧ ((health_check st now).status = "unhealthy"
      ↔ (health_check st now).model_loaded = false)
    ∧ ((health_check st now).status = "healthy"
      ∨ (health_check st now).status = "unhealthy") := by
  cases hm : st.model <;> simp [health_check, hm]

/-- C10 witness: the consistency property at the loaded fixture state. -/
theorem health_consistency_witness :
    ((health_check okState 0).status = "healthy"
      ↔ (health_check okState 0).model_loaded = true)
    ∧ ((health_check okState 0).status = "unhealthy"
      ↔ (health_check okState 0).model_loaded = false)
    ∧ ((health_check okState 0).status = "healthy"
      ∨ (health_check okState 0).status = "unhealthy") :=
  health_consistency okState 0

/-- C9: batch-validate yields one entry per uploaded file, in upload
order; each entry is the independent per-file processing of that file
alone, a failing file yields success=false carrying the exception
message, and other files are unaffected. -/
theorem batch_isolation (st : ServiceState) (files : List UploadFile) :
    (batch_validate st files).length = files.length
    ∧ (∀ (i : Nat) (hi : i < files.length),
        (batch_validate st files)[i]? = some (processOne st (files.get ⟨i, hi⟩)))
    ∧ (∀ file : UploadFile,
        ((processOne st file).success = false
          ↔ ∃ e, detect_objects st
              ⟨some (st.lib.b64encode file.content), none, [], [], 45/100⟩
              = Except.error e)
        ∧ ∀ e, detect_objects st
            ⟨some (st.lib.b64encode file.content), none, [], [], 45/100⟩
            = Except.error e →
            (processOne st file).error = some (exceptionStr e)) := by
  refine ⟨?_, ?_, ?_⟩
  · rw [batch_validate_eq_map]
    exact List.length_map files (processOne st)
  · intro i hi
    rw [batch_validate_eq_map]
    simp [List.getElem?_eq_getElem, hi]
  · intro file
    cases hd : detect_objects st
        ⟨some (st.lib.b64encode file.content), none, [], [], 45/100⟩ with
    | ok r => simp [processOne, hd]
    | error e =>
      constructor
      · simp [processOne, hd]
      · intro e' he'
        cases he'
        simp [processOne, hd]

/-- C9 witness: two files against the failing fixture stack; the batch
has both entries in order and the first entry is the record of the
first file alone. -/
theorem batch_isolation_witness :
    (batch_validate badState [⟨"a.jpg", [0]⟩, ⟨"b.jpg", [1]⟩]).length = 2
    ∧ (batch_validate badState [⟨"a.jpg", [0]⟩, ⟨"b.jpg", [1]⟩])[0]?
        = some (processOne badState ⟨"a.jpg", [0]⟩) := by
  have h := batch_isolation badState [⟨"a.jpg", [0]⟩, ⟨"b.jpg", [1]⟩]
  exact ⟨h.1, h.2.1 0 (by norm_num)⟩

/-- C8: for any imaging stack, any data-URL header starting with
"data:image" and containing no comma, and any comma-free valid-base64
payload, decoding the data-URL form equals decoding the bare payload:
the decoder strips everything up to and including the first comma. -/
theorem decode_data_url_strip (lib : ImageLib) (hdr s : Str)
    (hp : pyStartsWith hdr ("data:image".toList) = true)
    (hc : ',' ∉ hdr)
    (hs : ∀ c ∈ s, base64Char c = true) :
    decode_image lib (hdr ++ [','] ++ s) = decode_image lib s := by
  have hcs : ',' ∉ s := fun h => absurd (hs ',' h) (by decide)
  have hpre : pyStartsWith (hdr ++ [','] ++ s) ("data:image".toList) = true := by
    rw [pyStartsWith, List.isPrefixOf_iff_prefix]
    rw [pyStartsWith, List.isPrefixOf_iff_prefix] at hp
    obtain ⟨t, ht⟩ := hp
    refine ⟨t ++ [','] ++ s, ?_⟩
    rw [← ht]
    simp
  have hnp : pyStartsWith s ("data:image".toList) = false := by
    cases hq : pyStartsWith s ("data:image".toList) with
    | false => rfl
    | true =>
      rw [pyStartsWith, List.isPrefixOf_iff_prefix] at hq
      have hcol : ':' ∈ s := hq.sublist.subset (by decide)
      exact absurd (hs ':' hcol) (by decide)
  have hsplit : pySplit ',' (hdr ++ [','] ++ s) = hdr :: pySplit ',' s := by
    have hassoc : hdr ++ [','] ++ s = hdr ++ ',' :: s := by simp
    rw [hassoc]
    exact pySplit_append ',' hdr hc s
  have hssplit : pySplit ',' s = [s] := pySplit_no_sep ',' s hcs
  rw [decode_image, decode_image, hpre, hnp, hsplit, hssplit]
  simp

/-- C8 witness: the strip equivalence at a concrete header and payload
with the working fixture stack. -/
theorem decode_data_url_strip_witness :
    decode_image okLib ("data:image/png;base64".toList ++ [','] ++ "QUJD".toList)
      = decode_image okLib ("QUJD".toList) :=
  decode_data_url_strip okLib ("data:image/png;base64".toList) ("QUJD".toList)
    (by decide) (by decide) (by decide)

/-- C1 (against the code as written): with the model loaded, all three
malformed-input paths — neither field supplied, image_url supplied, or
image_data failing to decode — raise HTTPException(400) inside the try
block, and the broad `except Exception` catches it and re-raises 500
"Detection failed: ..." instead; the caller sees a server error, not the
4xx client error the spec requires. -/
theorem client_errors_surface_as_500 (st : ServiceState)
    (m : NpArray → ℚ → ℚ → List YoloResult) (hm : st.model = some m) :
    (∀ request : DetectionRequest,
      pyTruthy request.image_data = false → pyTruthy request.image_url = false →
      detect_objects st request
        = Except.error ⟨500, "Detection failed: "
            ++ exceptionStr ⟨400, "Either image_data or image_url required"⟩⟩)
    ∧ (∀ request : DetectionRequest,
      pyTruthy request.image_data = false → pyTruthy request.image_url = true →
      detect_objects st request
        = Except.error ⟨500, "Detection failed: "
            ++ exceptionStr ⟨400, "Image URL not supported yet"⟩⟩)
    ∧ (∀ (request : DetectionRequest) (cause : String),
      pyTruthy request.image_data = true →
      decode_image st.lib (request.image_data.getD []) = Except.error ⟨400, cause⟩ →
      detect_objects st request
        = Except.error ⟨500, "Detection failed: " ++ exceptionStr ⟨400, cause⟩⟩) := by
  refine ⟨?_, ?_, ?_⟩
  · intro request h1 h2
    simp [detect_objects, hm, h1, h2]
  · intro request h1 h2
    simp [detect_objects, hm, h1, h2]
  · intro request cause h1 h2
    simp [detect_objects, hm, h1, h2]

/-- C1 witness: all three malformed-input requests produce 500 at the
failing fixture state. -/
theorem client_errors_surface_as_500_witness :
    detect_objects badState ⟨none, none, [], [], 45/100⟩
      = Except.error ⟨500, "Detection failed: "
          ++ exceptionStr ⟨400, "Either image_data or image_url required"⟩⟩
    ∧ detect_objects badState ⟨none, some ("http://x.org/a.jpg".toList), [], [], 45/100⟩
      = Except.error ⟨500, "Detection failed: "
          ++ exceptionStr ⟨400, "Image URL not supported yet"⟩⟩
    ∧ detect_objects badState ⟨some ['A'], none, [], [], 45/100⟩
      = Except.error ⟨500, "Detection failed: "
          ++ exceptionStr ⟨400, "Invalid image data: bad base64"⟩⟩ := by
  have h := client_errors_surface_as_500 badState constModel rfl
  exact ⟨h.1 ⟨none, none, [], [], 45/100⟩ rfl rfl,
    h.2.1 ⟨none, some ("http://x.org/a.jpg".toList), [], [], 45/100⟩ rfl rfl,
    h.2.2 ⟨some ['A'], none, [], [], 45/100⟩ "Invalid image data: bad base64" rfl rfl⟩

end VisionY
